import Mathlib

/-!
Verification development for the Medimesh federation/streaming backend.

Each definition is a shallow embedding of a function of the repository
(file and line references in the doc comments).  Definitions whose source
is not part of the repository snapshot are marked `Modelled from the spec:`
and follow the specification's words.
-/

namespace Medimesh

/-! ### String helpers shared by the embedded code
`removePrefix` appears both in netx.ts (lines 35-40) and server.ts / part_002;
JS `String.prototype.startsWith`, `trim`, `split` are embedded on `List Char`
so that every definition evaluates inside the kernel. -/

/-- JS `str.startsWith(pre)`. -/
def strStartsWith (s pre : String) : Bool :=
  pre.data.isPrefixOf s.data

/-- `removePrefix` (netx.ts 35-40 and part_002 318-321): strips `pre` from the
front of `s` when present; JS `slice(prefix.length)` counts UTF-16 units, which
coincides with characters for the ASCII prefixes used by the code. -/
def dropPre (s pre : String) : String :=
  if strStartsWith s pre then String.mk (s.data.drop pre.data.length) else s

/-! ### Bubble router (backend-js/src/netx.ts)

`Net` (net.js is not part of the snapshot) is modelled from the spec:
§4.2 — a `Net`/Link is **one** authenticated channel to a single peer;
`send` writes one framed message (id, payload, optional header) to that
peer, and a read hook added with `addReadHook` fires for each message
decoded on that same channel.  An action below is therefore tagged with
the name of the Net it happens on. -/

/-- Message type tags of net.js (modelled from the spec §3: plain object,
file-tree announcement, stream messages, ...); only `object` is relevant
to the bubble router. -/
inductive MessageType
  | object
  | stream
  deriving DecidableEq, Repr

/-- The decoded message a read hook receives (net.js, modelled from the
spec §3 Message): type tag, id, payload and the optional visited header. -/
structure Msg where
  type : MessageType
  id : String
  data : String
  header : List String
  deriving DecidableEq, Repr

/-- An observable effect of the bubble hook: a `send` on a named Net, or an
invocation of the locally registered handler. -/
inductive NetAction
  | send (net : String) (id : String) (data : String) (header : List String)
  | invoke (id : String) (data : String)
  deriving DecidableEq, Repr

/-- `Net.prototype.sendBubble` (netx.ts 19-21): sends `[bubble]`-prefixed id
with the visited header `[nodeId]` on this Net. -/
def sendBubbleActions (net : String) (id : String) (nodeId : String)
    (data : String) : List NetAction :=
  [NetAction.send net ("[bubble]" ++ id) data [nodeId]]

/-- `Net.prototype.addBubbleHook` (netx.ts 23-33), as the list of actions the
installed read hook performs for one inbound message `m` arriving on `net`
(the Net the hook is attached to — `this.send` inside the hook can only write
to that same Net's peer).  Guards in source order: the message type must be
`object`, the id must start with `"[bubble]"`, and if the visited header
already contains `nodeId` the hook returns without doing anything; otherwise
it sends with `nodeId` appended to the header and then calls the handler with
the stripped id. -/
def bubbleHookActions (nodeId : String) (net : String) (m : Msg) :
    List NetAction :=
  if m.type ≠ MessageType.object then []
  else if ¬ strStartsWith m.id "[bubble]" then []
  else
    let nodeIds := m.header
    if nodeId ∈ nodeIds then []
    else
      [NetAction.send net m.id m.data (nodeIds ++ [nodeId]),
       NetAction.invoke (dropPre m.id "[bubble]") m.data]

/-! Two-node cycle A↔B: node A owns Net "AB", node B owns Net "BA";
a send on "AB" is delivered to node B arriving on "BA" and conversely. -/

/-- The node that receives what is sent on the given Net. -/
def peerNode (net : String) : String := if net = "AB" then "B" else "A"

/-- The Net at the receiving side on which the message arrives. -/
def peerNet (net : String) : String := if net = "AB" then "BA" else "AB"

/-- One in-flight message: receiving node, arrival Net, message. -/
structure Delivery where
  node : String
  net : String
  msg : Msg
  deriving DecidableEq, Repr

/-- Turn the sends among a hook's actions into the deliveries they cause. -/
def deliveriesOfSends (acts : List NetAction) : List Delivery :=
  acts.filterMap fun a =>
    match a with
    | NetAction.send net id data header =>
        some ⟨peerNode net, peerNet net, ⟨MessageType.object, id, data, header⟩⟩
    | _ => none

/-- The handler invocations among a hook's actions, tagged with the node. -/
def invokesAt (node : String) (acts : List NetAction) :
    List (String × String × String) :=
  acts.filterMap fun a =>
    match a with
    | NetAction.invoke id data => some (node, id, data)
    | _ => none

/-- Run the bubble protocol on the two-node topology to quiescence (bounded
by fuel), collecting every handler invocation `(node, id, data)`. -/
def runBubble : Nat → List Delivery → List (String × String × String)
  | 0, _ => []
  | _ + 1, [] => []
  | fuel + 1, d :: rest =>
    let acts := bubbleHookActions d.node d.net d.msg
    invokesAt d.node acts ++ runBubble fuel (rest ++ deliveriesOfSends acts)

/-- Node A sends bubble "evt" with payload "d" into the cycle A↔B; every
handler invocation that ever happens. -/
def cycleRun : List (String × String × String) :=
  runBubble 8 (deliveriesOfSends (sendBubbleActions "AB" "evt" "A" "d"))

/-! ### Batch string encoding (backend-js/src/netx.ts 42-59)

`BufferWriter` (buffer.ts is not part of the snapshot) is a cursor over a
byte buffer; the embedded value of `BufferWriter.prototype.strings` is the
byte sequence it appends.  UTF-8 is embedded directly (Node's `"utf8"`
encoding used by `Buffer.byteLength` and `Buffer.write`). -/

/-- UTF-8 bytes of one character. -/
def utf8Char (c : Char) : List Nat :=
  let n := c.toNat
  if n < 0x80 then [n]
  else if n < 0x800 then [0xC0 + n / 0x40, 0x80 + n % 0x40]
  else if n < 0x10000 then
    [0xE0 + n / 0x1000, 0x80 + n / 0x40 % 0x40, 0x80 + n % 0x40]
  else
    [0xF0 + n / 0x40000, 0x80 + n / 0x1000 % 0x40,
     0x80 + n / 0x40 % 0x40, 0x80 + n % 0x40]

/-- UTF-8 bytes of a string (`Buffer.write(value, ..., "utf8")`). -/
def utf8Bytes (s : String) : List Nat :=
  s.data.flatMap utf8Char

/-- The concatenated UTF-8 bytes of a batch of strings. -/
def utf8Concat (values : List String) : List Nat :=
  values.flatMap utf8Bytes

/-- `backend.writeInt32BE(n, cursor)`: the four big-endian bytes appended
(for `0 ≤ n < 2^31`, the only values Node accepts without throwing). -/
def writeInt32BE (n : Nat) : List Nat :=
  [n / 2 ^ 24 % 256, n / 2 ^ 16 % 256, n / 2 ^ 8 % 256, n % 256]

/-- `BufferWriter.prototype.strings` (netx.ts 42-59): the `writing` callback
collects the batch of strings with their UTF-8 byte lengths (`totalLength`
accumulates their sum); then ONE 4-byte big-endian `totalLength` is written,
followed by the bytes of each string in order.  The embedded value is the
byte sequence appended to the buffer. -/
def stringsEncode (values : List String) : List Nat :=
  let strings := values.map fun v => (v, (utf8Bytes v).length)
  let totalLength := (strings.map fun p => p.2).sum
  writeInt32BE totalLength ++ strings.flatMap fun p => utf8Bytes p.1

/-- A frame reader for the layout the spec describes: read a 4-byte
big-endian length prefix, consume exactly that many payload bytes, and
return the payload together with the remaining bytes. -/
def splitFrame (bs : List Nat) : Option (List Nat × List Nat) :=
  match bs with
  | b0 :: b1 :: b2 :: b3 :: rest =>
    let n := ((b0 * 256 + b1) * 256 + b2) * 256 + b3
    if n ≤ rest.length then some (rest.take n, rest.drop n) else none
  | _ => none

/-! ### Range parsing and the `/file` pipe (server.ts and part_002)

JS numbers that flow through this code are either `undefined`, `NaN`
(from `parseInt` on a non-numeric string, and propagated by arithmetic)
or an integer; `JsVal` captures exactly these three cases. -/

/-- A JS value in the range-handling code: `undefined`, `NaN`, or a number
(always integral here). -/
inductive JsVal
  | undef
  | nan
  | num (n : Int)
  deriving DecidableEq, Repr

/-- JS `a + b` on numbers (NaN and undefined propagate to NaN). -/
def JsVal.add : JsVal → JsVal → JsVal
  | JsVal.num a, JsVal.num b => JsVal.num (a + b)
  | _, _ => JsVal.nan

/-- JS `a - b` on numbers (NaN and undefined propagate to NaN). -/
def JsVal.sub : JsVal → JsVal → JsVal
  | JsVal.num a, JsVal.num b => JsVal.num (a - b)
  | _, _ => JsVal.nan

/-- JS `x ??= d`: only `undefined` (and `null`) are replaced; NaN is kept. -/
def jsNullish (v : JsVal) (d : JsVal) : JsVal :=
  match v with
  | JsVal.undef => d
  | x => x

/-- Truthiness of the optional `req.headers.range` string: absent and the
empty string are falsy. -/
def jsTruthyStr (s : Option String) : Bool :=
  match s with
  | none => false
  | some s => s ≠ ""

/-- JS `trim()`. -/
def jsTrim (s : String) : String :=
  String.mk (((s.data.dropWhile Char.isWhitespace).reverse.dropWhile
    Char.isWhitespace).reverse)

/-- JS `split(sep)` for a one-character separator. -/
def splitOnChar (sep : Char) : List Char → List (List Char)
  | [] => [[]]
  | c :: rest =>
    match splitOnChar sep rest with
    | [] => if c = sep then [[], []] else [[c]]
    | cur :: others =>
      if c = sep then [] :: cur :: others else (c :: cur) :: others

/-- JS `str.split("-")`. -/
def jsSplit (s : String) (sep : Char) : List String :=
  (splitOnChar sep s.data).map String.mk

/-- Digits-to-value accumulator for `parseInt`. -/
def digitsToNat (cs : List Char) : Nat :=
  cs.foldl (fun a c => a * 10 + (c.toNat - 48)) 0

/-- JS `parseInt(s)` (radix 10): skip whitespace, optional sign, then the
longest digit run; no digits gives NaN. -/
def jsParseInt (s : String) : JsVal :=
  let cs := (jsTrim s).data
  match cs with
  | '-' :: rest =>
    let ds := rest.takeWhile Char.isDigit
    if ds = [] then JsVal.nan else JsVal.num (-(digitsToNat ds : Int))
  | '+' :: rest =>
    let ds := rest.takeWhile Char.isDigit
    if ds = [] then JsVal.nan else JsVal.num (digitsToNat ds)
  | _ =>
    let ds := cs.takeWhile Char.isDigit
    if ds = [] then JsVal.nan else JsVal.num (digitsToNat ds)

/-- `resolveRange` (part_002 328-347, identical in server.ts 191-210):
parse the Range header into `{start?, end?}`.  `JsVal.undef` encodes a
field that was never assigned. -/
def resolveRange (range : Option String) : JsVal × JsVal :=
  if ¬ jsTruthyStr range then (JsVal.undef, JsVal.undef)
  else
    let r := range.getD ""
    if strStartsWith r "bytes=" then
      let parts := jsSplit (dropPre r "bytes=") '-'
      if parts.length = 2 then
        let rangeStart := jsTrim ((parts.get? 0).getD "")
        let start := if rangeStart ≠ "" then jsParseInt rangeStart else JsVal.undef
        let rangeEnd := jsTrim ((parts.get? 1).getD "")
        let stop := if rangeEnd ≠ "" then jsParseInt rangeEnd else JsVal.undef
        (start, stop)
      else (JsVal.undef, JsVal.undef)
    else (JsVal.undef, JsVal.undef)

/-- Modelled from the spec: `MeditreeNode.createReadStream` on a local file
(meditree.ts is not part of the snapshot).  §4.5 openStream, local case:
seek to `start` and limit the stream to `end - start + 1` bytes; a start
beyond end-of-file or an invalid range yields no stream (an error), never a
silently truncated stream. -/
def createReadStreamSpec (bytes : List Nat) (start stop : JsVal) :
    Option (List Nat) :=
  match start, stop with
  | JsVal.num s, JsVal.num e =>
    if 0 ≤ s ∧ s ≤ e ∧ e < (bytes.length : Int) then
      some ((bytes.drop s.toNat).take (e - s + 1).toNat)
    else none
  | _, _ => none

/-- The observable outcome of `pipeFile`: the final response status, the
`content-length` header value, the `content-range` header (start, end, size)
when set, and the streamed bytes (none when the 404 branch ran). -/
structure PipeResult where
  status : Nat
  contentLength : JsVal
  contentRange : Option (JsVal × JsVal × JsVal)
  stream : Option (List Nat)
  deriving DecidableEq, Repr

/-- `pipeFile` (part_002 251-283): parse the range, default `start` to 0 and
`end` to `size - 1`, set `content-length` to `(end + 1) - start`, answer 206
exactly when a Range header is present (and then also set `content-range`
and `accept-ranges`), then open the read stream with `{start, end}`; a null
stream turns the response into a 404. -/
def pipeFileNew (range : Option String) (size : JsVal) (bytes : List Nat) :
    PipeResult :=
  let parsed := resolveRange range
  let start := jsNullish parsed.1 (JsVal.num 0)
  let stop := jsNullish parsed.2 (JsVal.sub size (JsVal.num 1))
  let retrievedLength := JsVal.sub (JsVal.add stop (JsVal.num 1)) start
  let status : Nat := if jsTruthyStr range then 206 else 200
  let contentRange :=
    if jsTruthyStr range then some (start, stop, size) else none
  match createReadStreamSpec bytes start stop with
  | none =>
    { status := 404, contentLength := retrievedLength,
      contentRange := contentRange, stream := none }
  | some s =>
    { status := status, contentLength := retrievedLength,
      contentRange := contentRange, stream := some s }

/-- `pipeFile` (backend-js/src/server.ts 137-173).  Differences from
part_002: the sized branch runs only when `file.inner.size !== undefined`,
and the status line is `start !== undefined || end !== undefined ? 206 : 200`
— evaluated AFTER `start ??= 0` and `end ??= file.size - 1`, so the
condition holds for every request.  The unsized branch streams the whole
file with the default 200 status and no content-length. -/
def pipeFileOld (range : Option String) (size : JsVal) (bytes : List Nat) :
    PipeResult :=
  if size ≠ JsVal.undef then
    let parsed := resolveRange range
    let start := jsNullish parsed.1 (JsVal.num 0)
    let stop := jsNullish parsed.2 (JsVal.sub size (JsVal.num 1))
    let retrievedLength := JsVal.sub (JsVal.add stop (JsVal.num 1)) start
    let status : Nat :=
      if start ≠ JsVal.undef ∨ stop ≠ JsVal.undef then 206 else 200
    let contentRange :=
      if jsTruthyStr range then some (start, stop, size) else none
    match createReadStreamSpec bytes start stop with
    | none =>
      { status := 404, contentLength := retrievedLength,
        contentRange := contentRange, stream := none }
    | some s =>
      { status := status, contentLength := retrievedLength,
        contentRange := contentRange, stream := some s }
  else
    { status := 200, contentLength := JsVal.undef,
      contentRange := none, stream := some bytes }

/-- A ten-byte file used as concrete input. -/
def bytes10 : List Nat := List.replicate 10 0

/-! ### Merged file tree, resolution and the `/file` endpoint -/

/-- A file-tree entry (file.ts is not part of the snapshot; modelled from
the spec §3 FileTreeEntry): a `File` carries its declared `*type` tag
(absent or empty models a JS-falsy tag) and size; a `Directory` maps child
names to entries. -/
inductive FileTree
  | file (ftype : Option String) (size : JsVal)
  | dir (children : List (String × FileTree))

/-- Name lookup among a directory's children. -/
def lookupChild : List (String × FileTree) → String → Option FileTree
  | [], _ => none
  | (n, t) :: rest, seg => if n = seg then some t else lookupChild rest seg

/-- Modelled from the spec: the segment walk of `resolveFile`
(LocalFileTree.resolveFile in file.ts / MeditreeNode.resolveFile in
meditree.ts, neither part of the snapshot).  §4.5: walks the merged tree
segment by segment; each segment must match an entry name exactly. -/
def walk (t : FileTree) : List String → Option FileTree
  | [] => some t
  | seg :: rest =>
    match t with
    | FileTree.file _ _ => none
    | FileTree.dir children =>
      match lookupChild children seg with
      | none => none
      | some c => walk c rest

/-- The result of resolution: the entry's declared type and size. -/
structure Resolved where
  ftype : Option String
  size : JsVal
  deriving DecidableEq, Repr

/-- Modelled from the spec: `resolveFile` returns the origin with declared
type and size for a terminal `File`, and signals not-found when a segment
fails to match or the terminal entry is a Directory (§4.5). -/
def resolveFileSpec (t : FileTree) (segs : List String) : Option Resolved :=
  match walk t segs with
  | some (FileTree.file ft sz) => some ⟨ft, sz⟩
  | _ => none

/-- Outcome of the `/file(/*)` endpoint: an early 404, or the piped result. -/
inductive FileEndpointResult
  | status404
  | pipe (r : PipeResult)
  deriving DecidableEq, Repr

/-- The `/file(/*)` handler (part_002 220-247): resolve the path; when the
resolution is null or the entry has no truthy `*type`
(`!resolved?.inner?.["*type"]`), answer 404 and stop; otherwise set the
content type and delegate to `pipeFile`. -/
def fileEndpoint (t : FileTree) (segs : List String) (range : Option String)
    (bytes : List Nat) : FileEndpointResult :=
  match resolveFileSpec t segs with
  | none => FileEndpointResult.status404
  | some f =>
    match f.ftype with
    | none => FileEndpointResult.status404
    | some ft =>
      if ft = "" then FileEndpointResult.status404
      else FileEndpointResult.pipe (pipeFileNew range f.size bytes)

/-! ### Sub-node file-type filter (server.ts 29-32 and part_002 138-141) -/

/-- JS `fileTypes.includes(file["*type"])` where `fileTypes` is an array of
strings: an absent `*type` (`undefined`) is never an element. -/
def jsIncludes (l : List String) (v : Option String) : Bool :=
  match v with
  | some t => l.contains t
  | none => false

/-- `node.subNodeFilter` (backend-js/src/server.ts 29-32):
`fileTypes.includes(file["*type"])`. -/
def subNodeFilterOld (fileTypes : List String) (ftype : Option String) :
    Bool :=
  jsIncludes fileTypes ftype

/-- Falsiness of the `*type` field: absent (`undefined`) or empty. -/
def jsFalsyTag (v : Option String) : Bool :=
  match v with
  | none => true
  | some s => s = ""

/-- `node.subNodeFilter` (part_002 138-141):
`!file["*type"] || fileTypes.includes(file["*type"])`. -/
def subNodeFilterNew (fileTypes : List String) (ftype : Option String) :
    Bool :=
  jsFalsyTag ftype || jsIncludes fileTypes ftype

/-! ### Configuration (backend-js/src/config.ts)

Only the fields the key-handling code touches are embedded (`publicKey`,
`privateKey`, `name`); `defaultConfig` has none of them, so the
`Object.assign` merges are the identity on these fields. -/

/-- The key-related projection of an `AppConfig` object. -/
structure Config where
  publicKey : Option String
  privateKey : Option String
  name : Option String
  deriving DecidableEq, Repr

/-- Modelled from the spec: `nacl.box.keyPair.fromSecretKey(...).publicKey`
(opaque key material — only which key is derived from which matters). -/
def derivePublicKey (sk : String) : String :=
  "publicKeyOf(" ++ sk ++ ")"

/-- Modelled from the spec: `nacl.box.keyPair()` (opaque key material). -/
def generatedKeyPair : String × String :=
  ("generatedPublicKey", "generatedSecretKey")

/-- Modelled from the spec: `uuidv4()` (opaque fresh name). -/
def uuidString : String := "generated-uuid-v4"

/-- `setupConfig` (config.ts 80-95).  The first line
`config = Object.assign({}, config, defaultConfig)` rebinds the parameter to
a NEW object (identity on the embedded fields, since `defaultConfig` has
none of them); every later write mutates only that new object, which is
returned.  With a private key but no public key the public key is derived;
with no public key at all a fresh pair is generated; a missing name gets a
fresh uuid. -/
def setupConfig (config : Config) : Config :=
  let config :=
    if config.privateKey.isSome then
      if config.publicKey.isNone then
        { config with
          publicKey := some (derivePublicKey (config.privateKey.getD "")) }
      else config
    else if config.publicKey.isNone then
      { config with
        publicKey := some generatedKeyPair.1
        privateKey := some generatedKeyPair.2 }
    else config
  if config.name.isNone then { config with name := some uuidString }
  else config

/-- `findConfig`, existing-config-file branch (config.ts 100-104): the file
is parsed and merged over `defaultConfig` (identity on the embedded fields),
then `setupConfig(config)` is called — but `setupConfig` rebinds its
parameter to a fresh object, so the caller's `config` is never mutated and
the return value is discarded; the original parsed object is written back
to disk and returned. -/
def findConfigExisting (parsed : Config) : Config :=
  let config := parsed
  let _ := setupConfig config
  config

/-! ### HostTree (part_000) -/

/-- The mutable state of a `HostTree` (part_000 30-42): the constructor
assigns the classifier and filter but NOT `fileTree`, which stays
unassigned (`none`) until the first `rebuildFileTree` completes. -/
structure HostTreeState where
  fileTree : Option FileTree

/-- `new HostTree(options)` (part_000 36-42): `fileTree` is not assigned. -/
def HostTree.initial : HostTreeState := { fileTree := none }

/-- `HostTree.resolveFile` (part_000 65-67):
`this.fileTree?.resolveFile(pathParts)` — optional chaining returns
`undefined` while `fileTree` is unassigned. -/
def hostResolveFile (h : HostTreeState) (pathParts : List String) :
    Option Resolved :=
  match h.fileTree with
  | none => none
  | some t => resolveFileSpec t pathParts

/-- A concrete directory tree used as witness input. -/
def treeEx : FileTree :=
  FileTree.dir [("a", FileTree.file (some "text/plain") (JsVal.num 3))]

/-- A concrete bubble message: sent by node "A", not yet seen by "B". -/
def msgC2 : Msg := ⟨MessageType.object, "[bubble]evt", "d", ["A"]⟩

/-- Whether an action is a `send` on the given Net. -/
def NetAction.isSendOn (net : String) : NetAction → Bool
  | NetAction.send n _ _ _ => n = net
  | _ => false

/-! ## Theorems -/

/-- Claim C1: a bubble message arriving at a node whose own name already
appears in the visited header is discarded — the hook performs no send to
any peer and no local handler invocation; consequently, for a bubble sent
by node A into the two-node cycle A↔B, B's handlers run exactly once and
A's handlers are never invoked again. -/
theorem bubble_visited_discards_and_cycle_once :
    (∀ (nodeId net : String) (m : Msg), nodeId ∈ m.header →
        bubbleHookActions nodeId net m = []) ∧
    cycleRun.count ("B", "evt", "d") = 1 ∧
    ∀ p ∈ cycleRun, p.1 ≠ "A" := by
  refine ⟨?_, by decide, by decide⟩
  intro nodeId net m h
  unfold bubbleHookActions
  split
  · rfl
  split
  · rfl
  simp [h]

/-- Claim C1 witness: the concrete bubble that returned to node "A" after
visiting "A" and "B" produces no action at all. -/
theorem bubble_visited_discards_witness :
    bubbleHookActions "A" "AB"
      ⟨MessageType.object, "[bubble]evt", "d", ["A", "B"]⟩ = [] :=
  bubble_visited_discards_and_cycle_once.1 "A" "AB" _ (by decide)

/-- Claim C2 counterexample: at node "B", for a fresh bubble that arrived on
Net "BA" (the Link from "A"), the hook emits a `send` back over that same
arrival Net — and that send is the FIRST action, before the local handler
invocation; there is no send on any other Link.  This contradicts both the
claimed forwarding target ("every Link except the one it arrived on, and not
back over the arrival Link") and the claimed order ("after invoking its
local handlers"). -/
theorem bubble_forward_on_arrival_net_cex :
    bubbleHookActions "B" "BA" msgC2 =
      [NetAction.send "BA" "[bubble]evt" "d" ["A", "B"],
       NetAction.invoke "evt" "d"] ∧
    (bubbleHookActions "B" "BA" msgC2).any (NetAction.isSendOn "BA") = true ∧
    ((bubbleHookActions "B" "BA" msgC2).head?.map (NetAction.isSendOn "BA"))
      = some true := by decide

/-- Claim C2 (amended): when a node receives a bubble object message whose
visited header does not contain its own name, it appends its name to the
header and re-sends the message over the same Net the message arrived on
(the only Net the read hook can reach), and only afterwards invokes the
local handler with the `[bubble]`-stripped id and the unchanged payload. -/
theorem bubble_forward_amended (nodeId net : String) (m : Msg)
    (ht : m.type = MessageType.object)
    (hp : strStartsWith m.id "[bubble]" = true)
    (hv : nodeId ∉ m.header) :
    bubbleHookActions nodeId net m =
      [NetAction.send net m.id m.data (m.header ++ [nodeId]),
       NetAction.invoke (dropPre m.id "[bubble]") m.data] := by
  unfold bubbleHookActions
  simp [ht, hp, hv]

/-- Claim C2 witness: the amended forwarding behaviour at node "B" for the
concrete bubble from "A". -/
theorem bubble_forward_amended_witness :
    bubbleHookActions "B" "BA" msgC2 =
      [NetAction.send "BA" "[bubble]evt" "d" (["A"] ++ ["B"]),
       NetAction.invoke (dropPre "[bubble]evt" "[bubble]") "d"] :=
  bubble_forward_amended "B" "BA" msgC2 rfl (by decide) (by decide)

/-- Claim C3 counterexample: the batches `["a", "b"]` and `["ab"]` encode to
identical bytes, so no reader of the frame can split the concatenated
strings back into the original sequence — the encoding writes one total
length, not a per-string length prefix. -/
theorem strings_encode_not_lossless_cex :
    stringsEncode ["a", "b"] = stringsEncode ["ab"] ∧
    ("a" :: "b" :: [] : List String) ≠ ["ab"] := by decide

/-- The body of `stringsEncode`: the collected pairs contribute exactly the
concatenated UTF-8 bytes, and `totalLength` is their total byte length. -/
theorem encode_body (values : List String) :
    ((values.map fun v => (v, (utf8Bytes v).length)).flatMap
        fun p => utf8Bytes p.1) = utf8Concat values ∧
    ((values.map fun v => (v, (utf8Bytes v).length)).map fun p => p.2).sum
      = (utf8Concat values).length := by
  induction values with
  | nil => exact ⟨rfl, rfl⟩
  | cons v vs ih => simp [utf8Concat, ih.1, ih.2, Function.comp_def]

/-- Claim C3 (amended): a batch of strings written by
`BufferWriter.prototype.strings` is encoded as a single 4-byte big-endian
length — the total UTF-8 byte length of all strings — followed by their
concatenated UTF-8 bytes; a reader that consumes the length prefix and then
exactly that many bytes recovers the batch's concatenated bytes losslessly
and leaves the rest of the frame intact (the batch boundary is lossless;
the individual string boundaries are not encoded). -/
theorem strings_encode_frame_layout (values : List String) (rest : List Nat)
    (h : (utf8Concat values).length < 2 ^ 31) :
    stringsEncode values =
      writeInt32BE (utf8Concat values).length ++ utf8Concat values ∧
    splitFrame (stringsEncode values ++ rest)
      = some (utf8Concat values, rest) := by
  have henc : stringsEncode values =
      writeInt32BE (utf8Concat values).length ++ utf8Concat values := by
    simp only [stringsEncode]
    rw [(encode_body values).1, (encode_body values).2]
  refine ⟨henc, ?_⟩
  rw [henc]
  set L := (utf8Concat values).length with hL
  simp only [writeInt32BE, List.cons_append, List.nil_append, List.append_assoc,
    splitFrame]
  have hbe : ((L / 2 ^ 24 % 256 * 256 + L / 2 ^ 16 % 256) * 256
      + L / 2 ^ 8 % 256) * 256 + L % 256 = L := by omega
  rw [hbe]
  have hlen : L ≤ (utf8Concat values ++ rest).length := by
    simp [hL]
  rw [if_pos hlen]
  rw [hL, List.take_left, List.drop_left]

/-- Claim C3 witness: the frame layout at the concrete batch `["ab", "c"]`
followed by one extra frame byte. -/
theorem strings_encode_frame_layout_witness :
    (utf8Concat ["ab", "c"]).length < 2 ^ 31 ∧
    splitFrame (stringsEncode ["ab", "c"] ++ [7])
      = some (utf8Concat ["ab", "c"], [7]) :=
  ⟨by decide, (strings_encode_frame_layout ["ab", "c"] [7] (by decide)).2⟩

/-- Claim C4 counterexample: for a 0-byte local file, a request with no
range is NOT answered with a stream of exactly `size = 0` bytes —
`pipeFile` always passes the defaulted bounds `{start: 0, end: size - 1}`,
i.e. `{0, -1}` here, an invalid range (start > end), so the request yields
no stream and a 404. -/
theorem pipe_file_empty_file_cex :
    (pipeFileNew none (JsVal.num 0) ([] : List Nat)).stream = none ∧
    (pipeFileNew none (JsVal.num 0) ([] : List Nat)).status = 404 ∧
    (none : Option (List Nat)) ≠ some [] := by decide

/-- Claim C4 (amended): for a local file of `size` bytes, a request with a
parsed range `[a, b]`, `0 ≤ a ≤ b < size`, is answered with a stream of
exactly the slice `[a, b]` of the file — `b - a + 1` bytes — and the
content-length header is exactly `(end + 1) - start`; a request with no
range is answered with a stream of exactly the whole file (`size` bytes)
when the file is non-empty (a 0-byte file fails with no stream, since the
defaulted bounds `{0, -1}` are an invalid range). -/
theorem pipe_file_range_exact (bytes : List Nat) (r : Option String)
    (a b : Nat)
    (hr : resolveRange r = (JsVal.num a, JsVal.num b))
    (hab : a ≤ b) (hb : b < bytes.length) (hne : bytes ≠ []) :
    (pipeFileNew r (JsVal.num bytes.length) bytes).stream =
      some ((bytes.drop a).take (b - a + 1)) ∧
    (∀ s, (pipeFileNew r (JsVal.num bytes.length) bytes).stream = some s →
      s.length = b - a + 1) ∧
    (pipeFileNew r (JsVal.num bytes.length) bytes).contentLength =
      JsVal.num ((b : Int) + 1 - (a : Int)) ∧
    (pipeFileNew none (JsVal.num bytes.length) bytes).stream = some bytes ∧
    (∀ s, (pipeFileNew none (JsVal.num bytes.length) bytes).stream = some s →
      s.length = bytes.length) := by
  have hpos : 0 < bytes.length := List.length_pos.mpr hne
  have hcs : createReadStreamSpec bytes (JsVal.num a) (JsVal.num b)
      = some ((bytes.drop a).take (b - a + 1)) := by
    simp only [createReadStreamSpec]
    rw [if_pos (by
      exact ⟨by positivity, by exact_mod_cast hab, by exact_mod_cast hb⟩)]
    rw [show ((a : Int)).toNat = a by omega,
      show (((b : Int) - (a : Int) + 1)).toNat = b - a + 1 by omega]
  have hone : pipeFileNew r (JsVal.num bytes.length) bytes =
      { status := if jsTruthyStr r then 206 else 200,
        contentLength := JsVal.num ((b : Int) + 1 - (a : Int)),
        contentRange := if jsTruthyStr r then
          some (JsVal.num a, JsVal.num b, JsVal.num bytes.length) else none,
        stream := some ((bytes.drop a).take (b - a + 1)) } := by
    simp [pipeFileNew, hr, jsNullish, JsVal.add, JsVal.sub, hcs]
  have hcs0 : createReadStreamSpec bytes (JsVal.num 0)
      (JsVal.num ((bytes.length : Int) - 1)) = some bytes := by
    simp only [createReadStreamSpec]
    rw [if_pos (by refine ⟨le_refl 0, by omega, by omega⟩)]
    rw [show ((0 : Int).toNat) = 0 from rfl]
    rw [show (((bytes.length : Int) - 1 - 0 + 1).toNat) = bytes.length by omega]
    simp
  have hnone : pipeFileNew none (JsVal.num bytes.length) bytes =
      { status := 200,
        contentLength := JsVal.num ((bytes.length : Int)),
        contentRange := none,
        stream := some bytes } := by
    simp [pipeFileNew, resolveRange, jsTruthyStr, jsNullish, JsVal.add,
      JsVal.sub, hcs0]
  refine ⟨by rw [hone], ?_, by rw [hone], by rw [hnone], ?_⟩
  · intro s hs
    rw [hone] at hs
    simp at hs
    rw [← hs]
    simp
    omega
  · intro s hs
    rw [hnone] at hs
    simp at hs
    rw [← hs]

/-- Claim C4 witness: range `bytes=1-3` on the five-byte file
`[10, 20, 30, 40, 50]` streams exactly its middle three bytes. -/
theorem pipe_file_range_exact_witness :
    resolveRange (some "bytes=1-3") = (JsVal.num 1, JsVal.num 3) ∧
    (pipeFileNew (some "bytes=1-3") (JsVal.num 5) [10, 20, 30, 40, 50]).stream
      = some [20, 30, 40] :=
  ⟨by decide,
    ((pipe_file_range_exact [10, 20, 30, 40, 50] (some "bytes=1-3") 1 3
      (by decide) (by decide) (by decide) (by decide)).1).trans (by decide)⟩

/-- Claim C5 counterexample: on a 10-byte file, range `bytes=0-99` is NOT
clamped — the content-range header carries end = 99 and the content-length
is 100, exceeding the file size; and a start beyond end-of-file
(`bytes=20-`) yields a negative content-length and a 404 response, not a
RangeError returned to the caller. -/
theorem range_clamp_cex :
    (pipeFileNew (some "bytes=0-99") (JsVal.num 10) bytes10).contentRange =
      some (JsVal.num 0, JsVal.num 99, JsVal.num 10) ∧
    (pipeFileNew (some "bytes=0-99") (JsVal.num 10) bytes10).contentLength =
      JsVal.num 100 ∧
    ¬ (100 : Int) ≤ 10 ∧
    (pipeFileNew (some "bytes=20-") (JsVal.num 10) bytes10).contentLength =
      JsVal.num (-10) ∧
    (pipeFileNew (some "bytes=20-") (JsVal.num 10) bytes10).status = 404 := by
  decide

/-- Claim C5 (amended): the HTTP layer does not clamp range bounds — for
every parsed range `[a, b]` and every file size, the content-length is
exactly `(b + 1) - a` and the content-range header carries `a` and `b`
verbatim, independent of the file size. -/
theorem range_unclamped_passthrough (r : Option String) (a b : Nat)
    (size : JsVal) (bytes : List Nat)
    (hr : resolveRange r = (JsVal.num a, JsVal.num b)) :
    (pipeFileNew r size bytes).contentLength
      = JsVal.num ((b : Int) + 1 - (a : Int)) ∧
    (pipeFileNew r size bytes).contentRange
      = some (JsVal.num a, JsVal.num b, size) := by
  have htr : jsTruthyStr r = true := by
    cases h : jsTruthyStr r
    · rw [resolveRange] at hr
      simp [h] at hr
    · rfl
  rcases hcs : createReadStreamSpec bytes (JsVal.num a) (JsVal.num b)
      with _ | s <;>
    simp [pipeFileNew, hr, htr, hcs, jsNullish, JsVal.add, JsVal.sub]

/-- Claim C5 witness: the pass-through at range `bytes=0-99` on a 10-byte
file. -/
theorem range_unclamped_passthrough_witness :
    (pipeFileNew (some "bytes=0-99") (JsVal.num 10) bytes10).contentLength
      = JsVal.num ((99 : Int) + 1 - (0 : Int)) ∧
    (pipeFileNew (some "bytes=0-99") (JsVal.num 10) bytes10).contentRange
      = some (JsVal.num 0, JsVal.num 99, JsVal.num 10) :=
  range_unclamped_passthrough (some "bytes=0-99") 0 99 (JsVal.num 10) bytes10
    (by decide)

/-- Claim C6: in the backend-js `server.ts` version of `pipeFile`, a request
with NO Range header on a sized file is answered 206 (with no content-range
header) because the status condition tests the already-defaulted start/end —
while the part_002 version correctly answers 200 without a Range header and
206 with one, together with a content-range header. -/
theorem status_206_without_range_bug :
    (pipeFileOld none (JsVal.num 10) bytes10).status = 206 ∧
    (pipeFileOld none (JsVal.num 10) bytes10).contentRange = none ∧
    (pipeFileNew none (JsVal.num 10) bytes10).status = 200 ∧
    (pipeFileNew (some "bytes=0-4") (JsVal.num 10) bytes10).status = 206 ∧
    (pipeFileNew (some "bytes=0-4") (JsVal.num 10) bytes10).contentRange =
      some (JsVal.num 0, JsVal.num 4, JsVal.num 10) := by decide

/-- Claim C7: whenever a path segment fails to match an entry of the merged
tree, or the terminal entry is a Directory, the `/file` endpoint answers
404 — never 500 and never a stream. -/
theorem unresolved_path_yields_404 (t : FileTree) (segs : List String)
    (range : Option String) (bytes : List Nat)
    (h : walk t segs = none ∨ ∃ cs, walk t segs = some (FileTree.dir cs)) :
    fileEndpoint t segs range bytes = FileEndpointResult.status404 := by
  rcases h with h | ⟨cs, h⟩ <;> simp [fileEndpoint, resolveFileSpec, h]

/-- Claim C7 witness: a missing segment on the concrete tree gives 404. -/
theorem unresolved_path_yields_404_witness :
    fileEndpoint treeEx ["missing"] none [] = FileEndpointResult.status404 :=
  unresolved_path_yields_404 treeEx ["missing"] none [] (Or.inl rfl)

/-- Claim C8 counterexample: the part_002 sub-node filter KEEPS an entry
with no `*type` tag, although such a tag is not in the configured set —
while the server.ts filter drops it, so the claim does not hold of both
cited filters. -/
theorem subnode_filter_untagged_kept_cex :
    subNodeFilterNew ["video"] none = true ∧
    subNodeFilterOld ["video"] none = false := by decide

/-- Claim C8 (amended): for entries carrying a non-empty `*type` tag both
filters agree and keep the entry exactly when the tag is in the configured
file-type set; the part_002 filter additionally keeps entries whose tag is
missing or empty. -/
theorem subnode_filter_tagged_amended (fileTypes : List String) (t : String)
    (h : t ≠ "") :
    subNodeFilterNew fileTypes (some t) = subNodeFilterOld fileTypes (some t) ∧
    (subNodeFilterOld fileTypes (some t) = true ↔ t ∈ fileTypes) := by
  constructor
  · simp [subNodeFilterNew, subNodeFilterOld, jsFalsyTag, h]
  · simp [subNodeFilterOld, jsIncludes, List.elem_iff]

/-- Claim C8 witness: the amended filter behaviour at tag "video" with
configured set `["video"]`. -/
theorem subnode_filter_tagged_amended_witness :
    (subNodeFilterNew ["video"] (some "video")
      = subNodeFilterOld ["video"] (some "video")) ∧
    (subNodeFilterOld ["video"] (some "video") = true ↔
      "video" ∈ ["video"]) :=
  subnode_filter_tagged_amended ["video"] "video" (by decide)

/-- Claim C9: `setupConfig` does generate a keypair when none is supplied,
derives the public key when only a private key is supplied, and keeps a
present keypair unchanged — but `findConfig`'s existing-file branch discards
`setupConfig`'s result (the parameter is rebound to a fresh object before
mutation), so the configuration it returns for a key-less config file still
has NO keypair. -/
theorem findconfig_discards_generated_keypair :
    (findConfigExisting ⟨none, none, none⟩).publicKey = none ∧
    (findConfigExisting ⟨none, none, none⟩).privateKey = none ∧
    (setupConfig ⟨none, none, none⟩).publicKey = some generatedKeyPair.1 ∧
    (setupConfig ⟨none, none, none⟩).privateKey = some generatedKeyPair.2 ∧
    (setupConfig ⟨none, some "sk", none⟩).publicKey
      = some (derivePublicKey "sk") ∧
    (setupConfig ⟨some "pk", some "sk", none⟩).publicKey = some "pk" ∧
    (setupConfig ⟨some "pk", some "sk", none⟩).privateKey = some "sk" := by
  decide

/-- Claim C10: `resolveFile` on a `HostTree` whose first `rebuildFileTree`
has not yet completed returns no file for every path — the optional
chaining on the unassigned tree yields `undefined` instead of throwing. -/
theorem host_resolve_before_rebuild_none (pathParts : List String) :
    hostResolveFile HostTree.initial pathParts = none := rfl

end Medimesh
